import Mathlib

/-!
Verification development for the section-level semantic index, hybrid
relevance-scoring algorithm and cross-document recommendation pipeline of
the document-insight system.  The backend engine itself
(`backend/app/main.py`, `backend/app/utils/intelligent_pdf_brain.py`, the
section store and vector index) is not shipped in this copy of the
repository; the definitions below are therefore modelled from the
specification (sections 3, 4, 6, 7) and, where available, from the literal
code excerpts embedded in `CROSS_DOCUMENT_INTELLIGENCE_IMPLEMENTATION.md`.
Scores are modelled with rational numbers; cosine similarity is a
parameter (`sim`), since its numerical value never matters to the
properties below, only how the pipeline consumes it.
-/

/-- Modelled from the spec: the error taxonomy of section 7 (the backend
module raising these is absent from the sources). -/
inductive CoreError where
  | duplicateDocument
  | notFound
  | modelUnavailable
  | invalidQuery
  | emptyPage
  | recommendationUnavailable
deriving DecidableEq, Repr

/-- Modelled from the spec: a Section of the data model (section 3) —
page-scoped text unit with an optional lazily computed embedding. -/
structure PdfSection where
  id : Nat
  document_id : Nat
  page_number : Nat
  bounding_box : ℚ × ℚ × ℚ × ℚ
  text : String
  embedding : Option (List ℚ)
deriving DecidableEq, Repr, Inhabited

/-- Modelled from the spec: a persona/job Profile (section 3) —
weighted domain tags plus a keyword set. -/
structure Profile where
  persona_label : String
  job_label : String
  domain_weights : List (String × ℚ)
  profile_keywords : List String
deriving DecidableEq, Repr

/-- Stop words removed by the lexical tokenizer (section 4.4, step 2). -/
def stop_words : List String :=
  ["a", "an", "the", "and", "or", "of", "to", "in", "on", "for",
   "with", "is", "are", "was", "were", "be", "as", "at", "by", "it"]

/-- Lowercase alphanumeric tokenization (section 4.4, step 2). -/
def tokenize (s : String) : List String :=
  (s.toLower.split (fun c => !c.isAlphanum)).filter (fun w => w ≠ "")

/-- Keyword set of a text: tokens minus stop words, deduplicated. -/
def textKeywords (s : String) : List String :=
  ((tokenize s).filter (fun w => w ∉ stop_words)).dedup

/-- Jaccard overlap of two keyword lists; 0 if either is empty
(section 4.4, step 2). -/
def jaccard (a b : List String) : ℚ :=
  if a = [] ∨ b = [] then 0
  else ((a.inter b).length : ℚ) / ((a.union b).length : ℚ)

/-- Lexical component of the score (section 4.4, step 2). -/
def lexical_score (query_text cand_text : String) : ℚ :=
  jaccard (textKeywords query_text) (textKeywords cand_text)

/-- Modelled from the spec: domain bonus (section 4.4, step 3) — the sum of
the profile weights of the candidate's matched domain tags, capped at 1. -/
def domain_bonus (p : Profile) (cand_domains : List String) : ℚ :=
  min 1 (((p.domain_weights.filter (fun dw => decide (dw.1 ∈ cand_domains))).map
    Prod.snd).sum)

/-- Modelled from the spec: the Relevance Scorer (section 4.4; the backend
scorer module is absent from the sources).  `sim` is the cosine-similarity
backend and `doms` the domain tagger, both upstream collaborators.  Steps:
clamp the raw similarity into [0,1] with (s+1)/2, compute the Jaccard
lexical overlap, add the capped domain bonus (absent profile disables it),
and combine with weights 0.6 / 0.25 / 0.15. -/
def relevance_score (sim : List ℚ → List ℚ → ℚ) (doms : String → List String)
    (query_embedding : List ℚ) (query_text : String)
    (cand_embedding : List ℚ) (cand_text : String)
    (profile : Option Profile) : ℚ :=
  let semantic := (sim query_embedding cand_embedding + 1) / 2
  let lexical := lexical_score query_text cand_text
  let dbonus := match profile with
    | none => 0
    | some p => domain_bonus p (doms cand_text)
  6/10 * semantic + 25/100 * lexical + 15/100 * dbonus

/-- Explanation tag by score band (section 4.4, step 5). -/
def explanation_tag (score : ℚ) : String :=
  if 8/10 ≤ score then "high confidence"
  else if 6/10 ≤ score then "medium confidence"
  else "exploratory"

/-- Modelled from the spec: the Section Store (section 4.1; the backend
store module is absent from the sources) — authoritative map from document
id to its ordered list of sections. -/
structure SectionStore where
  docs : List (Nat × List PdfSection)
deriving DecidableEq, Repr

/-- All sections currently held by the store, in document order. -/
def SectionStore.allSections (s : SectionStore) : List PdfSection :=
  (s.docs.map Prod.snd).flatten

/-- Section lookup by id; `none` models `NotFoundError` (section 4.1). -/
def get_section (s : SectionStore) (sid : Nat) : Option PdfSection :=
  s.allSections.find? (fun sec => decide (sec.id = sid))

/-- Sections of a document; the empty list for an unknown id is a valid
state, not an error (section 4.1). -/
def sections_for_document (s : SectionStore) (d : Nat) : List PdfSection :=
  ((s.docs.find? (fun pr => decide (pr.1 = d))).map Prod.snd).getD []

/-- Modelled from the spec: `remove_document` (section 4.1) — drops the
document's sections and returns the removed section ids so the vector
index can evict them; a no-op returning `[]` on an unknown id. -/
def remove_document (s : SectionStore) (d : Nat) : SectionStore × List Nat :=
  (⟨s.docs.filter (fun pr => decide (pr.1 ≠ d))⟩,
   (sections_for_document s d).map (fun sec => sec.id))

/-- One entry of the Vector Index: a section id, its embedding, and the
owning document id (section 4.3); insertion order is the list order. -/
structure IndexEntry where
  section_id : Nat
  vector : List ℚ
  document_id : Nat
deriving DecidableEq, Repr

/-- Modelled from the spec: the Vector Index (section 4.3; the backend
index wrapper is absent from the sources). -/
structure VectorIndex where
  entries : List IndexEntry
deriving DecidableEq, Repr

/-- Eviction of a batch of section ids, ignoring unknown ids
(section 4.3). -/
def VectorIndex.removeIds (idx : VectorIndex) (ids : List Nat) : VectorIndex :=
  ⟨idx.entries.filter (fun e => decide (e.section_id ∉ ids))⟩

/-- Descending-similarity order on raw hits; insertion order breaks ties
because the sort used below is stable (section 4.3). -/
def hitGE (a b : Nat × ℚ) : Prop := b.2 ≤ a.2

instance : DecidableRel hitGE := fun a b => inferInstanceAs (Decidable (b.2 ≤ a.2))

instance : IsTotal (Nat × ℚ) hitGE := ⟨fun a b => le_total b.2 a.2⟩

instance : IsTrans (Nat × ℚ) hitGE := ⟨fun _ _ _ h1 h2 => le_trans h2 h1⟩

/-- Core of the index search: score the entries a scope predicate keeps,
sort by descending similarity (stably, so insertion order breaks ties) and
return at most `k` hits (section 4.3). -/
def searchWith (idx : VectorIndex) (sim : List ℚ → List ℚ → ℚ)
    (q : List ℚ) (k : Nat) (pred : IndexEntry → Bool) : List (Nat × ℚ) :=
  (List.insertionSort hitGE
    ((idx.entries.filter pred).map (fun e => (e.section_id, sim q e.vector)))).take k

/-- Scope predicate of a search: optional document exclusion and optional
restriction to one document (section 4.3). -/
def scopePred (excl only : Option Nat) (e : IndexEntry) : Bool :=
  (match excl with | some d => decide (e.document_id ≠ d) | none => true) &&
  (match only with | some d => decide (e.document_id = d) | none => true)

/-- Modelled from the spec: `search` of the Vector Index (section 4.3) —
at most `k` hits over the scoped entries, ordered by descending similarity
with insertion order breaking ties; passing both `exclude_document_id` and
`only_document_id` fails with `InvalidQueryError`. -/
def VectorIndex.search (idx : VectorIndex) (sim : List ℚ → List ℚ → ℚ)
    (q : List ℚ) (k : Nat) (exclude_document_id only_document_id : Option Nat) :
    Except CoreError (List (Nat × ℚ)) :=
  match exclude_document_id, only_document_id with
  | some _, some _ => .error .invalidQuery
  | excl, only => .ok (searchWith idx sim q k (scopePred excl only))

/-- The library state the Recommendation Assembler reads: the Section
Store and the Vector Index together. -/
structure LibraryState where
  store : SectionStore
  index : VectorIndex
deriving DecidableEq, Repr

/-- Modelled from the spec: `delete_document` of the exposed interface
(sections 4.1 and 6) — removes the document's sections from the store and
evicts their vectors from the index (cascade); idempotent. -/
def delete_document (st : LibraryState) (d : Nat) : LibraryState × List Nat :=
  let (store2, removed) := remove_document st.store d
  (⟨store2, st.index.removeIds removed⟩, removed)

/-- Sections sitting on one page of one document (section 4.5, step 1). -/
def sectionsOnPage (s : SectionStore) (d p : Nat) : List PdfSection :=
  (sections_for_document s d).filter (fun sec => decide (sec.page_number = p))

/-- Query text: the concatenation of all section texts on the queried page
(section 4.5, step 1). -/
def concatTexts (l : List PdfSection) : String :=
  String.join (l.map (fun sec => sec.text))

/-- A candidate section paired with its final relevance score. -/
structure Scored where
  sec : PdfSection
  score : ℚ
deriving DecidableEq, Repr

/-- Ranking order of the assembler (section 4.5): descending final score,
ties broken by page number ascending then section id ascending. -/
def rankGE (a b : Scored) : Prop :=
  b.score < a.score ∨ (a.score = b.score ∧
    (a.sec.page_number < b.sec.page_number ∨
      (a.sec.page_number = b.sec.page_number ∧ a.sec.id ≤ b.sec.id)))

instance : DecidableRel rankGE := fun a b =>
  inferInstanceAs (Decidable (b.score < a.score ∨ (a.score = b.score ∧
    (a.sec.page_number < b.sec.page_number ∨
      (a.sec.page_number = b.sec.page_number ∧ a.sec.id ≤ b.sec.id)))))

instance : IsTotal Scored rankGE := by
  constructor
  intro a b
  rcases lt_trichotomy a.score b.score with h | h | h
  · exact Or.inr (Or.inl h)
  · rcases Nat.lt_trichotomy a.sec.page_number b.sec.page_number with h2 | h2 | h2
    · exact Or.inl (Or.inr ⟨h, Or.inl h2⟩)
    · rcases Nat.le_total a.sec.id b.sec.id with h3 | h3
      · exact Or.inl (Or.inr ⟨h, Or.inr ⟨h2, h3⟩⟩)
      · exact Or.inr (Or.inr ⟨h.symm, Or.inr ⟨h2.symm, h3⟩⟩)
    · exact Or.inr (Or.inr ⟨h.symm, Or.inl h2⟩)
  · exact Or.inl (Or.inl h)

instance : IsTrans Scored rankGE := by
  constructor
  intro a b c hab hbc
  rcases hab with h1 | ⟨h1, h1'⟩
  · rcases hbc with h2 | ⟨h2, _⟩
    · exact Or.inl (lt_trans h2 h1)
    · exact Or.inl (h2 ▸ h1)
  · rcases hbc with h2 | ⟨h2, h2'⟩
    · exact Or.inl (h1 ▸ h2)
    · refine Or.inr ⟨h1.trans h2, ?_⟩
      rcases h1' with h3 | ⟨h3, h3'⟩
      · rcases h2' with h4 | ⟨h4, _⟩
        · exact Or.inl (lt_trans h3 h4)
        · exact Or.inl (h4 ▸ h3)
      · rcases h2' with h4 | ⟨h4, h4'⟩
        · exact Or.inl (h3 ▸ h4)
        · exact Or.inr ⟨h3.trans h4, le_trans h3' h4'⟩

/-- Resolve raw index hits against the Section Store: drop a hit silently
when its section is gone (section 4.5, step 4, and the consistency note of
section 4.3) or when the section has no embedding (which the data-model
invariant of section 3 forbids for indexed sections). -/
def resolveHits (s : SectionStore) (hits : List (Nat × ℚ)) :
    List (PdfSection × List ℚ) :=
  hits.filterMap (fun h =>
    match get_section s h.1 with
    | some sec =>
      match sec.embedding with
      | some emb => some (sec, emb)
      | none => none
    | none => none)

/-- Score every surviving candidate with the Relevance Scorer
(section 4.5, step 5). -/
def scoreCands (sim : List ℚ → List ℚ → ℚ) (doms : String → List String)
    (qv : List ℚ) (query_text : String) (profile : Option Profile)
    (cands : List (PdfSection × List ℚ)) : List Scored :=
  cands.map (fun c =>
    ⟨c.1, relevance_score sim doms qv query_text c.2 c.1.text profile⟩)

/-- Snippet: the first ~200 characters of the section text, trimmed at a
word boundary (section 4.5, step 7). -/
def mkSnippet (t : String) : String :=
  if t.length ≤ 200 then t
  else
    let cut := t.take 200
    let trimmed := cut.dropRightWhile (fun c => c ≠ ' ')
    if trimmed = "" then cut else trimmed

/-- One entry of a RecommendationResult (section 3). -/
structure RecEntry where
  section_id : Nat
  document_id : Nat
  page_number : Nat
  bounding_box : ℚ × ℚ × ℚ × ℚ
  snippet : String
  relevance_score : ℚ
  explanation : String
deriving DecidableEq, Repr

/-- Build a result entry from a scored candidate (section 4.5, step 7). -/
def mkEntry (sc : Scored) : RecEntry :=
  ⟨sc.sec.id, sc.sec.document_id, sc.sec.page_number, sc.sec.bounding_box,
   mkSnippet sc.sec.text, sc.score, explanation_tag sc.score⟩

/-- A recommendation result: the capped same-document and cross-document
ranked lists (sections 3 and 4.5). -/
structure RecommendationResult where
  same_document : List RecEntry
  cross_document : List RecEntry
deriving DecidableEq, Repr

/-- Steps 4 to 7 of the assembler (section 4.5) on the two raw hit lists:
resolve hits against the store dropping the missing silently, exclude the
queried page's own sections from the same-document pool, score, rank by
descending score with the page/id tie-break, cap at `k` per list, and
deduplicate by section id across the two lists. -/
def assembleLists (sim : List ℚ → List ℚ → ℚ) (doms : String → List String)
    (store : SectionStore) (pageSecs : List PdfSection) (qv : List ℚ)
    (profile : Option Profile) (same_document_k cross_document_k : Nat)
    (sameHits crossHits : List (Nat × ℚ)) : RecommendationResult :=
  let query_text := concatTexts pageSecs
  let pageIds : List Nat := pageSecs.map (fun sec => sec.id)
  let sameCands := (resolveHits store sameHits).filter
    (fun c => decide (c.1.id ∉ pageIds))
  let crossCands := resolveHits store crossHits
  let sameTop :=
    (List.insertionSort rankGE
      (scoreCands sim doms qv query_text profile sameCands)).take same_document_k
  let crossTop0 :=
    (List.insertionSort rankGE
      (scoreCands sim doms qv query_text profile crossCands)).take cross_document_k
  let sameIds : List Nat := sameTop.map (fun sc => sc.sec.id)
  let crossTop := crossTop0.filter (fun sc => decide (sc.sec.id ∉ sameIds))
  ⟨sameTop.map mkEntry, crossTop.map mkEntry⟩

/-- Modelled from the spec: the Recommendation Assembler's `recommend`
(sections 4.5, 6 and 7; the backend assembler is absent from the sources).
Steps: resolve the page's query text (`EmptyPageError` if the page has no
sections), embed it once (`RecommendationUnavailableError` on any
embedding failure), run one same-document and one cross-document index
search each over-requesting `3*k`, and assemble the two capped ranked
lists; any internal search failure is converted to
`RecommendationUnavailableError` at this boundary (section 7). -/
def recommend (sim : List ℚ → List ℚ → ℚ) (doms : String → List String)
    (embed : String → Option (List ℚ)) (st : LibraryState)
    (document_id page_number : Nat) (profile : Option Profile)
    (same_document_k cross_document_k : Nat) :
    Except CoreError RecommendationResult :=
  let pageSecs := sectionsOnPage st.store document_id page_number
  if pageSecs = [] then .error .emptyPage
  else
    match embed (concatTexts pageSecs) with
    | none => .error .recommendationUnavailable
    | some qv =>
      match st.index.search sim qv (3 * same_document_k) none (some document_id),
            st.index.search sim qv (3 * cross_document_k) (some document_id) none with
      | .ok sameHits, .ok crossHits =>
        .ok (assembleLists sim doms st.store pageSecs qv profile
          same_document_k cross_document_k sameHits crossHits)
      | _, _ => .error .recommendationUnavailable

/-- `recommend` with the default caps of section 4.5: `same_document_k`
and `cross_document_k` both 3. -/
def recommend_default (sim : List ℚ → List ℚ → ℚ) (doms : String → List String)
    (embed : String → Option (List ℚ)) (st : LibraryState)
    (document_id page_number : Nat) (profile : Option Profile) :
    Except CoreError RecommendationResult :=
  recommend sim doms embed st document_id page_number profile 3 3

/-- One cross-document recommendation as the recommendations endpoint
returns it (the `RelatedSection` interface of
`CROSS_DOCUMENT_INTELLIGENCE_IMPLEMENTATION.md`): the base FAISS
similarity in `relevance`, the optional brain score in
`enhanced_relevance`, the optional AI reasoning in
`intelligence_explanation`. -/
structure RelatedSection where
  id : String
  title : String
  snippet : String
  page : Nat
  documentId : String
  documentName : String
  relevance : ℚ
  enhanced_relevance : Option ℚ
  intelligence_explanation : Option String
deriving DecidableEq, Repr, Inhabited

/-- Python truthiness of an optional query-string parameter: present and
non-empty. -/
def truthy : Option String → Bool
  | none => false
  | some s => s ≠ ""

/-- The explanation string the endpoint attaches to an enhanced
candidate. -/
def intelligenceMsg (persona : String) (score : ℚ) : String :=
  "Intelligent analysis for " ++ persona ++ ": " ++ toString score ++ " relevance"

/-- Enhancement of one candidate: attach the brain score and the
explanation; on a brain failure fall back to the unchanged candidate (the
try/except of the excerpt). -/
def enhanceOne (brain : String → String → Nat → String → String → Option ℚ)
    (persona job : String) (rec : RelatedSection) : RelatedSection :=
  match brain rec.snippet rec.title rec.page persona job with
  | some sc =>
    { rec with enhanced_relevance := some sc,
               intelligence_explanation := some (intelligenceMsg persona sc) }
  | none => rec

/-- Walk the candidate list keeping position `i`, enhancing only the
candidates at positions below 5 (the `[:5]` slice of the excerpt). -/
def enhanceFrom (brain : String → String → Nat → String → String → Option ℚ)
    (persona job : String) : Nat → List RelatedSection → List RelatedSection
  | _, [] => []
  | i, r :: rs =>
    (if i < 5 then enhanceOne brain persona job r else r) ::
      enhanceFrom brain persona job (i + 1) rs

/-- Modelled from the spec: the persona/job enhancement pass of the
recommendations endpoint (`backend/app/main.py`, absent from the sources;
modelled from its literal excerpt in
`CROSS_DOCUMENT_INTELLIGENCE_IMPLEMENTATION.md`): only when
`include_cross_document` is set, the candidate list is non-empty and both
`persona` and `job` are truthy, the first five cross-document candidates
get `enhanced_relevance` and `intelligence_explanation`; everything else
is left untouched. -/
def enhance_cross_document (brain : String → String → Nat → String → String → Option ℚ)
    (include_cross_document : Bool) (persona job : Option String)
    (recs : List RelatedSection) : List RelatedSection :=
  if include_cross_document && !recs.isEmpty && truthy persona && truthy job then
    enhanceFrom brain (persona.getD "") (job.getD "") 0 recs
  else recs

/-- The same-generation invariant of the data model (section 3): every
stored section is reachable through its own document's slice, and the
Vector Index never disagrees with the Section Store about the owning
document of a section. -/
def WellFormed (st : LibraryState) : Prop :=
  (∀ s ∈ st.store.allSections, s ∈ sections_for_document st.store s.document_id) ∧
  (∀ e ∈ st.index.entries, ∀ s ∈ st.store.allSections,
    s.id = e.section_id → s.document_id = e.document_id)

instance (st : LibraryState) : Decidable (WellFormed st) :=
  inferInstanceAs (Decidable (_ ∧ _))

/-- The ranking order of section 4.5, read off a result entry: descending
final score, ties broken by page number ascending then section id
ascending. -/
def entryRank (a b : RecEntry) : Prop :=
  b.relevance_score < a.relevance_score ∨ (a.relevance_score = b.relevance_score ∧
    (a.page_number < b.page_number ∨
      (a.page_number = b.page_number ∧ a.section_id ≤ b.section_id)))

instance : DecidableRel entryRank := fun a b =>
  inferInstanceAs (Decidable (b.relevance_score < a.relevance_score ∨
    (a.relevance_score = b.relevance_score ∧
      (a.page_number < b.page_number ∨
        (a.page_number = b.page_number ∧ a.section_id ≤ b.section_id)))))

/-- Concrete fixture: document 1 has a section on page 1 and one on page
2, document 2 has one section; used to exercise the pipeline. -/
def wSecA1 : PdfSection := ⟨1, 1, 1, (0, 0, 1, 1), "ax", some [1]⟩

/-- Concrete fixture: the page-2 section of document 1. -/
def wSecA2 : PdfSection := ⟨2, 1, 2, (0, 0, 1, 1), "bx", some [2]⟩

/-- Concrete fixture: the only section of document 2. -/
def wSecB1 : PdfSection := ⟨3, 2, 1, (0, 0, 1, 1), "cx", some [3]⟩

/-- Concrete fixture: a two-document library with a consistent index. -/
def wState : LibraryState :=
  ⟨⟨[(1, [wSecA1, wSecA2]), (2, [wSecB1])]⟩,
   ⟨[⟨1, [1], 1⟩, ⟨2, [2], 1⟩, ⟨3, [3], 2⟩]⟩⟩

/-- Concrete fixture: a dot-product similarity backend. -/
def wSim (a b : List ℚ) : ℚ := (List.zipWith (fun x y => x * y) a b).sum

/-- Concrete fixture: a domain tagger that tags nothing. -/
def wDoms (_ : String) : List String := []

/-- Concrete fixture: an embedding service that always answers `[1]`. -/
def wEmbed (_ : String) : Option (List ℚ) := some [1]

/-- Concrete fixture: an embedding service that is down. -/
def wEmbedDown (_ : String) : Option (List ℚ) := none

/-- Concrete fixture: the result of the default recommendation query on
page 1 of document 1 of `wState`. -/
def wRes : RecommendationResult :=
  (recommend wSim wDoms wEmbed wState 1 1 none 3 3).toOption.getD ⟨[], []⟩

/-- Concrete fixture: a library whose index has no cross-document entry
for document 1. -/
def wStateOnlySame : LibraryState :=
  ⟨⟨[(1, [wSecA1, wSecA2])]⟩, ⟨[⟨1, [1], 1⟩, ⟨2, [2], 1⟩]⟩⟩

/-- Concrete fixture: the result of the default recommendation query on
page 1 of document 1 of `wStateOnlySame`. -/
def wResOnlySame : RecommendationResult :=
  (recommend wSim wDoms wEmbed wStateOnlySame 1 1 none 3 3).toOption.getD ⟨[], []⟩

/-- Concrete fixture: one raw cross-document candidate for the endpoint
enhancement pass. -/
def wRel0 : RelatedSection :=
  ⟨"s1", "t1", "sn1", 1, "d2", "dn2", 1/2, none, none⟩

/-- Concrete fixture: a second raw candidate. -/
def wRel1 : RelatedSection :=
  ⟨"s2", "t2", "sn2", 2, "d2", "dn2", 1/4, none, none⟩

/-- Concrete fixture: a brain that scores every section 9/10. -/
def wBrain (_ _ : String) (_ : Nat) (_ _ : String) : Option ℚ := some (9/10)

theorem searchWith_mem {idx : VectorIndex} {sim : List ℚ → List ℚ → ℚ}
    {q : List ℚ} {k : Nat} {pred : IndexEntry → Bool} {h : Nat × ℚ}
    (hh : h ∈ searchWith idx sim q k pred) :
    ∃ e ∈ idx.entries, pred e = true ∧ h.1 = e.section_id := by
  unfold searchWith at hh
  have h1 := List.take_subset _ _ hh
  rw [List.mem_insertionSort] at h1
  rcases List.mem_map.1 h1 with ⟨e, he, hfe⟩
  rcases List.mem_filter.1 he with ⟨hin, hpred⟩
  exact ⟨e, hin, hpred, by rw [← hfe]⟩

theorem resolveHits_mem {store : SectionStore} {hits : List (Nat × ℚ)}
    {c : PdfSection × List ℚ} (hc : c ∈ resolveHits store hits) :
    c.1 ∈ store.allSections ∧ ∃ hit ∈ hits, c.1.id = hit.1 := by
  unfold resolveHits at hc
  rcases List.mem_filterMap.1 hc with ⟨hit, hmem, heq⟩
  cases hg : get_section store hit.1 with
  | none => simp [hg] at heq
  | some sec =>
    cases hemb : sec.embedding with
    | none => simp [hg, hemb] at heq
    | some emb =>
      simp [hg, hemb] at heq
      have hg2 : store.allSections.find? (fun sec => decide (sec.id = hit.1)) = some sec := hg
      have hsecmem := List.mem_of_find?_eq_some hg2
      have hfind := List.find?_some hg2
      have hsecid : sec.id = hit.1 := by simpa using hfind
      subst heq
      exact ⟨hsecmem, hit, hmem, hsecid⟩

theorem recommend_eq_ok {sim : List ℚ → List ℚ → ℚ} {doms : String → List String}
    {embed : String → Option (List ℚ)} {st : LibraryState}
    {d p : Nat} {prof : Option Profile} {sk ck : Nat} {qv : List ℚ}
    (hp : sectionsOnPage st.store d p ≠ [])
    (hq : embed (concatTexts (sectionsOnPage st.store d p)) = some qv) :
    recommend sim doms embed st d p prof sk ck =
      .ok (assembleLists sim doms st.store (sectionsOnPage st.store d p) qv prof sk ck
        (searchWith st.index sim qv (3 * sk) (scopePred none (some d)))
        (searchWith st.index sim qv (3 * ck) (scopePred (some d) none))) := by
  simp [recommend, hp, hq, VectorIndex.search]

theorem assembleLists_same_mem {sim : List ℚ → List ℚ → ℚ} {doms : String → List String}
    {store : SectionStore} {pageSecs : List PdfSection} {qv : List ℚ}
    {prof : Option Profile} {sk ck : Nat} {sameHits crossHits : List (Nat × ℚ)}
    {e : RecEntry}
    (he : e ∈ (assembleLists sim doms store pageSecs qv prof sk ck
      sameHits crossHits).same_document) :
    ∃ sec, sec ∈ store.allSections ∧ (∃ hit ∈ sameHits, sec.id = hit.1) ∧
      sec.id ∉ pageSecs.map (fun s => s.id) ∧
      e.section_id = sec.id ∧ e.document_id = sec.document_id ∧
      e.page_number = sec.page_number := by
  unfold assembleLists at he
  rcases List.mem_map.1 he with ⟨sc, hsc, rfl⟩
  have hsc2 := List.take_subset _ _ hsc
  rw [List.mem_insertionSort] at hsc2
  rcases List.mem_map.1 hsc2 with ⟨c, hc, rfl⟩
  rcases List.mem_filter.1 hc with ⟨hres, hnotpage⟩
  rcases resolveHits_mem hres with ⟨hmem, hhit⟩
  exact ⟨c.1, hmem, hhit, of_decide_eq_true hnotpage, rfl, rfl, rfl⟩

theorem assembleLists_cross_mem {sim : List ℚ → List ℚ → ℚ} {doms : String → List String}
    {store : SectionStore} {pageSecs : List PdfSection} {qv : List ℚ}
    {prof : Option Profile} {sk ck : Nat} {sameHits crossHits : List (Nat × ℚ)}
    {e : RecEntry}
    (he : e ∈ (assembleLists sim doms store pageSecs qv prof sk ck
      sameHits crossHits).cross_document) :
    ∃ sec, sec ∈ store.allSections ∧ (∃ hit ∈ crossHits, sec.id = hit.1) ∧
      e.section_id = sec.id ∧ e.document_id = sec.document_id ∧
      e.page_number = sec.page_number := by
  unfold assembleLists at he
  rcases List.mem_map.1 he with ⟨sc, hsc, rfl⟩
  have hsc1 := (List.mem_filter.1 hsc).1
  have hsc2 := List.take_subset _ _ hsc1
  rw [List.mem_insertionSort] at hsc2
  rcases List.mem_map.1 hsc2 with ⟨c, hc, rfl⟩
  rcases resolveHits_mem hc with ⟨hmem, hhit⟩
  exact ⟨c.1, hmem, hhit, rfl, rfl, rfl⟩

theorem recommend_ok_inv {sim : List ℚ → List ℚ → ℚ} {doms : String → List String}
    {embed : String → Option (List ℚ)} {st : LibraryState}
    {d p : Nat} {prof : Option Profile} {sk ck : Nat} {res : RecommendationResult}
    (h : recommend sim doms embed st d p prof sk ck = .ok res) :
    sectionsOnPage st.store d p ≠ [] ∧
    ∃ qv, embed (concatTexts (sectionsOnPage st.store d p)) = some qv ∧
      res = assembleLists sim doms st.store (sectionsOnPage st.store d p) qv prof sk ck
        (searchWith st.index sim qv (3 * sk) (scopePred none (some d)))
        (searchWith st.index sim qv (3 * ck) (scopePred (some d) none)) := by
  by_cases hp : sectionsOnPage st.store d p = []
  · rw [recommend] at h
    simp [hp] at h
  · refine ⟨hp, ?_⟩
    cases hq : embed (concatTexts (sectionsOnPage st.store d p)) with
    | none =>
      rw [recommend] at h
      simp [hp, hq] at h
    | some qv =>
      refine ⟨qv, rfl, ?_⟩
      rw [recommend_eq_ok hp hq] at h
      cases h
      rfl


/-- C1: for every candidate, query context and profile, the Relevance
Scorer returns exactly 0.6*semantic + 0.25*lexical + 0.15*domain_bonus,
where semantic is the raw cosine similarity mapped into [0,1] by
(semantic+1)/2 and domain_bonus is capped at 1. -/
theorem claim_C1_score_formula (sim : List ℚ → List ℚ → ℚ)
    (doms : String → List String) (qe : List ℚ) (qt : String)
    (ce : List ℚ) (ct : String) (p : Profile)
    (h1 : -1 ≤ sim qe ce) (h2 : sim qe ce ≤ 1) :
    relevance_score sim doms qe qt ce ct (some p)
      = 6/10 * ((sim qe ce + 1) / 2) + 25/100 * lexical_score qt ct
        + 15/100 * domain_bonus p (doms ct)
    ∧ 0 ≤ (sim qe ce + 1) / 2 ∧ (sim qe ce + 1) / 2 ≤ 1
    ∧ domain_bonus p (doms ct) ≤ 1 := by
  refine ⟨rfl, by linarith, by linarith, ?_⟩
  unfold domain_bonus
  exact min_le_left _ _

/-- Witness for C1 at a concrete similarity backend, query and profile. -/
theorem claim_C1_score_formula_witness :
    (-1 ≤ (0 : ℚ)) ∧ ((0 : ℚ) ≤ 1) ∧
    relevance_score (fun _ _ => (0 : ℚ)) (fun _ => ([] : List String))
        [] "q" [] "c" (some ⟨"p", "j", [], []⟩)
      = 6/10 * (((0 : ℚ) + 1) / 2) + 25/100 * lexical_score "q" "c"
        + 15/100 * domain_bonus ⟨"p", "j", [], []⟩ [] :=
  ⟨by norm_num, by norm_num,
    (claim_C1_score_formula (fun _ _ => 0) (fun _ => []) [] "q" [] "c"
      ⟨"p", "j", [], []⟩ (by norm_num) (by norm_num)).1⟩

/-- C8: the final relevance score is monotone in the semantic component:
with the lexical and domain inputs fixed, a larger raw similarity never
yields a strictly smaller final score. -/
theorem claim_C8_score_monotone (sim1 sim2 : List ℚ → List ℚ → ℚ)
    (doms : String → List String) (qe : List ℚ) (qt : String)
    (ce : List ℚ) (ct : String) (prof : Option Profile)
    (h : sim1 qe ce ≤ sim2 qe ce) :
    relevance_score sim1 doms qe qt ce ct prof
      ≤ relevance_score sim2 doms qe qt ce ct prof := by
  unfold relevance_score
  cases prof <;> dsimp only <;> linarith

/-- Witness for C8 at two concrete similarity backends. -/
theorem claim_C8_score_monotone_witness :
    ((0 : ℚ) ≤ 1) ∧
    relevance_score (fun _ _ => (0 : ℚ)) (fun _ => ([] : List String)) [] "q" [] "c" none
      ≤ relevance_score (fun _ _ => (1 : ℚ)) (fun _ => ([] : List String)) [] "q" [] "c" none :=
  ⟨by norm_num,
    claim_C8_score_monotone (fun _ _ => 0) (fun _ _ => 1) (fun _ => [])
      [] "q" [] "c" none (by norm_num)⟩

theorem sections_for_document_remove_self (s : SectionStore) (x : Nat) :
    sections_for_document (remove_document s x).1 x = [] := by
  have hfind : ((s.docs.filter (fun pr => decide (pr.1 ≠ x))).find?
      (fun pr => decide (pr.1 = x))) = none := by
    rw [List.find?_eq_none]
    intro pr hpr
    have h2 := (List.mem_filter.1 hpr).2
    simp only [decide_eq_true_eq] at h2 ⊢
    exact h2
  unfold remove_document sections_for_document
  simp only [hfind]
  rfl

theorem removeIds_nil (idx : VectorIndex) : idx.removeIds [] = idx := by
  unfold VectorIndex.removeIds
  cases idx with
  | mk entries =>
    simp

theorem remove_document_idem (s : SectionStore) (x : Nat) :
    (remove_document (remove_document s x).1 x).1 = (remove_document s x).1 := by
  show (⟨(s.docs.filter (fun pr => decide (pr.1 ≠ x))).filter
      (fun pr => decide (pr.1 ≠ x))⟩ : SectionStore)
    = ⟨s.docs.filter (fun pr => decide (pr.1 ≠ x))⟩
  congr 1
  apply List.filter_eq_self.mpr
  intro a ha
  exact (List.mem_filter.1 ha).2

/-- C9: document deletion is idempotent — after one `delete_document x`
the document's section slice is empty, and a second `delete_document x`
returns an empty removed-id list and leaves the whole library state
unchanged (a no-op, not an error). -/
theorem claim_C9_delete_idempotent (st : LibraryState) (x : Nat) :
    (delete_document (delete_document st x).1 x).2 = [] ∧
    sections_for_document (delete_document st x).1.store x = [] ∧
    (delete_document (delete_document st x).1 x).1 = (delete_document st x).1 := by
  have hstore : (delete_document st x).1.store = (remove_document st.store x).1 := rfl
  have hempty : sections_for_document (delete_document st x).1.store x = [] := by
    rw [hstore]; exact sections_for_document_remove_self st.store x
  have hrem2 : (delete_document (delete_document st x).1 x).2 = [] := by
    show (sections_for_document (delete_document st x).1.store x).map _ = []
    rw [hempty]
    rfl
  refine ⟨hrem2, hempty, ?_⟩
  show (⟨(remove_document (delete_document st x).1.store x).1,
    (delete_document st x).1.index.removeIds (delete_document (delete_document st x).1 x).2⟩ :
      LibraryState) = (delete_document st x).1
  rw [hrem2, removeIds_nil, hstore, remove_document_idem, ← hstore]

/-- C7: a recommend query against a (document, page) pair with no
sections — in particular against a document id unknown to the Section
Store — returns `EmptyPageError`, not a crash or a result. -/
theorem claim_C7_empty_page (sim : List ℚ → List ℚ → ℚ)
    (doms : String → List String) (embed : String → Option (List ℚ))
    (st : LibraryState) (d p : Nat) (prof : Option Profile) (sk ck : Nat) :
    (sectionsOnPage st.store d p = [] →
      recommend sim doms embed st d p prof sk ck = .error .emptyPage) ∧
    ((∀ pr ∈ st.store.docs, pr.1 ≠ d) →
      recommend sim doms embed st d p prof sk ck = .error .emptyPage) := by
  have base : sectionsOnPage st.store d p = [] →
      recommend sim doms embed st d p prof sk ck = .error .emptyPage := by
    intro h
    rw [recommend]
    simp [h]
  refine ⟨base, ?_⟩
  intro h
  apply base
  have hsec : sections_for_document st.store d = [] := by
    have hfind : st.store.docs.find? (fun pr => decide (pr.1 = d)) = none := by
      rw [List.find?_eq_none]
      intro pr hpr
      simpa using h pr hpr
    unfold sections_for_document
    rw [hfind]
    rfl
  unfold sectionsOnPage
  rw [hsec]
  rfl

/-- Witness for C7 on a concrete library: page 3 of document 1 is empty,
and document 99 is unknown to the store. -/
theorem claim_C7_empty_page_witness :
    sectionsOnPage wState.store 1 3 = [] ∧
    recommend wSim wDoms wEmbed wState 1 3 none 3 3 = .error .emptyPage ∧
    recommend wSim wDoms wEmbed wState 99 1 none 3 3 = .error .emptyPage :=
  ⟨by decide,
   (claim_C7_empty_page wSim wDoms wEmbed wState 1 3 none 3 3).1 (by decide),
   (claim_C7_empty_page wSim wDoms wEmbed wState 99 1 none 3 3).2 (by decide)⟩

/-- C2: an embedding-service failure aborts the whole query with
`RecommendationUnavailableError` (no partial ranking is returned), while
an index search returning zero hits is not an error: that half of the
result is just the empty list. -/
theorem claim_C2_failure_semantics (sim : List ℚ → List ℚ → ℚ)
    (doms : String → List String) (embed : String → Option (List ℚ))
    (st : LibraryState) (d p : Nat) (prof : Option Profile) (sk ck : Nat)
    (qv : List ℚ) :
    (sectionsOnPage st.store d p ≠ [] →
      embed (concatTexts (sectionsOnPage st.store d p)) = none →
      recommend sim doms embed st d p prof sk ck = .error .recommendationUnavailable) ∧
    (sectionsOnPage st.store d p ≠ [] →
      embed (concatTexts (sectionsOnPage st.store d p)) = some qv →
      searchWith st.index sim qv (3 * sk) (scopePred none (some d)) = [] →
      ∃ res, recommend sim doms embed st d p prof sk ck = .ok res ∧
        res.same_document = []) ∧
    (sectionsOnPage st.store d p ≠ [] →
      embed (concatTexts (sectionsOnPage st.store d p)) = some qv →
      searchWith st.index sim qv (3 * ck) (scopePred (some d) none) = [] →
      ∃ res, recommend sim doms embed st d p prof sk ck = .ok res ∧
        res.cross_document = []) := by
  refine ⟨?_, ?_, ?_⟩
  · intro hp hq
    rw [recommend]
    simp [hp, hq]
  · intro hp hq hzero
    refine ⟨_, recommend_eq_ok hp hq, ?_⟩
    rw [hzero]
    simp [assembleLists, resolveHits, scoreCands]
  · intro hp hq hzero
    refine ⟨_, recommend_eq_ok hp hq, ?_⟩
    rw [hzero]
    simp [assembleLists, resolveHits, scoreCands]

/-- Witness for C2: with the embedding service down the whole query on a
non-empty page errors; on a library with no foreign documents the
cross-document half is just empty, not an error. -/
theorem claim_C2_failure_semantics_witness :
    recommend wSim wDoms wEmbedDown wState 1 1 none 3 3
      = Except.error CoreError.recommendationUnavailable ∧
    recommend wSim wDoms wEmbed wStateOnlySame 1 1 none 3 3
      = Except.ok wResOnlySame ∧
    wResOnlySame.cross_document = [] := by
  have h1 := (claim_C2_failure_semantics wSim wDoms wEmbedDown wState 1 1 none 3 3 []).1
    (by decide) rfl
  obtain ⟨res, hok, hcross⟩ :=
    (claim_C2_failure_semantics wSim wDoms wEmbed wStateOnlySame 1 1 none 3 3 [1]).2.2
      (by decide) rfl (by decide)
  have hw : wResOnlySame = res := by
    unfold wResOnlySame
    rw [hok]
    rfl
  exact ⟨h1, hw ▸ hok, hw ▸ hcross⟩

/-- C3: with at least one section on the queried page and a live
embedding service, a recommend query without a profile succeeds — the
missing profile only zeroes the domain-bonus term of every score, it is
not an error. -/
theorem claim_C3_no_profile (sim : List ℚ → List ℚ → ℚ)
    (doms : String → List String) (embed : String → Option (List ℚ))
    (st : LibraryState) (d p sk ck : Nat) (qv : List ℚ)
    (hp : sectionsOnPage st.store d p ≠ [])
    (hq : embed (concatTexts (sectionsOnPage st.store d p)) = some qv) :
    (∃ res, recommend sim doms embed st d p none sk ck = .ok res) ∧
    (∀ qe qt ce ct, relevance_score sim doms qe qt ce ct none
      = 6/10 * ((sim qe ce + 1) / 2) + 25/100 * lexical_score qt ct) := by
  refine ⟨⟨_, recommend_eq_ok hp hq⟩, ?_⟩
  intro qe qt ce ct
  unfold relevance_score
  dsimp only
  ring

/-- Witness for C3 on the concrete two-document library. -/
theorem claim_C3_no_profile_witness :
    sectionsOnPage wState.store 1 1 ≠ [] ∧
    recommend wSim wDoms wEmbed wState 1 1 none 3 3 = Except.ok wRes ∧
    relevance_score wSim wDoms [1] "q" [2] "c" none
      = 6/10 * ((wSim [1] [2] + 1) / 2) + 25/100 * lexical_score "q" "c" := by
  obtain ⟨⟨res, hok⟩, hsc⟩ :=
    claim_C3_no_profile wSim wDoms wEmbed wState 1 1 3 3 [1] (by decide) rfl
  have hw : wRes = res := by
    unfold wRes
    rw [hok]
    rfl
  exact ⟨by decide, hw ▸ hok, hsc [1] "q" [2] "c"⟩

theorem assembleLists_length_same {sim : List ℚ → List ℚ → ℚ}
    {doms : String → List String} {store : SectionStore}
    {pageSecs : List PdfSection} {qv : List ℚ} {prof : Option Profile}
    {sk ck : Nat} {sameHits crossHits : List (Nat × ℚ)} :
    (assembleLists sim doms store pageSecs qv prof sk ck
      sameHits crossHits).same_document.length ≤ sk := by
  unfold assembleLists
  dsimp only
  rw [List.length_map]
  exact List.length_take_le _ _

theorem assembleLists_length_cross {sim : List ℚ → List ℚ → ℚ}
    {doms : String → List String} {store : SectionStore}
    {pageSecs : List PdfSection} {qv : List ℚ} {prof : Option Profile}
    {sk ck : Nat} {sameHits crossHits : List (Nat × ℚ)} :
    (assembleLists sim doms store pageSecs qv prof sk ck
      sameHits crossHits).cross_document.length ≤ ck := by
  unfold assembleLists
  dsimp only
  rw [List.length_map]
  exact le_trans (List.length_filter_le _ _) (List.length_take_le _ _)

/-- C4: the returned same-document list never exceeds `same_document_k`
and the cross-document list never exceeds `cross_document_k`, and the
default query uses 3 for both caps. -/
theorem claim_C4_caps (sim : List ℚ → List ℚ → ℚ) (doms : String → List String)
    (embed : String → Option (List ℚ)) (st : LibraryState)
    (d p : Nat) (prof : Option Profile) (sk ck : Nat) :
    (∀ res, recommend sim doms embed st d p prof sk ck = .ok res →
      res.same_document.length ≤ sk ∧ res.cross_document.length ≤ ck) ∧
    recommend_default sim doms embed st d p prof
      = recommend sim doms embed st d p prof 3 3 := by
  refine ⟨?_, rfl⟩
  intro res h
  rcases recommend_ok_inv h with ⟨hp, qv, hq, rfl⟩
  exact ⟨assembleLists_length_same, assembleLists_length_cross⟩

/-- Witness for C4 on the concrete two-document library. -/
theorem claim_C4_caps_witness :
    recommend wSim wDoms wEmbed wState 1 1 none 3 3 = Except.ok wRes ∧
    wRes.same_document.length ≤ 3 ∧ wRes.cross_document.length ≤ 3 := by
  have hok : recommend wSim wDoms wEmbed wState 1 1 none 3 3 = Except.ok wRes := by
    rfl
  exact ⟨hok, (claim_C4_caps wSim wDoms wEmbed wState 1 1 none 3 3).1 wRes hok⟩

/-- C5: on a library whose index agrees with its store (the
same-generation invariant of section 3), no returned cross-document entry
belongs to the queried document, and no returned same-document entry sits
on the queried page itself. -/
theorem claim_C5_no_self_recommendation (sim : List ℚ → List ℚ → ℚ)
    (doms : String → List String) (embed : String → Option (List ℚ))
    (st : LibraryState) (d p : Nat) (prof : Option Profile) (sk ck : Nat)
    (res : RecommendationResult) (hwf : WellFormed st)
    (h : recommend sim doms embed st d p prof sk ck = .ok res) :
    (∀ e ∈ res.cross_document, e.document_id ≠ d) ∧
    (∀ e ∈ res.same_document, e.page_number ≠ p) := by
  rcases recommend_ok_inv h with ⟨hp, qv, hq, rfl⟩
  obtain ⟨hwf1, hwf2⟩ := hwf
  constructor
  · intro e he
    rcases assembleLists_cross_mem he with ⟨sec, hmem, ⟨hit, hhit, hid⟩, hes, hed, hep⟩
    rcases searchWith_mem hhit with ⟨entry, hentry, hpred, hh1⟩
    have hdoc : entry.document_id ≠ d := by
      unfold scopePred at hpred
      simpa using hpred
    have hsec : sec.document_id = entry.document_id :=
      hwf2 entry hentry sec hmem (hid.trans hh1)
    rw [hed, hsec]
    exact hdoc
  · intro e he
    rcases assembleLists_same_mem he with ⟨sec, hmem, ⟨hit, hhit, hid⟩, hnp, hes, hed, hep⟩
    rcases searchWith_mem hhit with ⟨entry, hentry, hpred, hh1⟩
    have hdoc : entry.document_id = d := by
      unfold scopePred at hpred
      simpa using hpred
    have hsecdoc : sec.document_id = d :=
      (hwf2 entry hentry sec hmem (hid.trans hh1)).trans hdoc
    intro hpage
    apply hnp
    have h1 : sec ∈ sections_for_document st.store d := hsecdoc ▸ hwf1 sec hmem
    have h2 : sec ∈ sectionsOnPage st.store d p := by
      unfold sectionsOnPage
      refine List.mem_filter.2 ⟨h1, ?_⟩
      have : sec.page_number = p := hep.symm.trans hpage
      simpa using this
    exact List.mem_map.2 ⟨sec, h2, rfl⟩

/-- Witness for C5 on the concrete two-document library, which satisfies
the same-generation invariant. -/
theorem claim_C5_no_self_recommendation_witness :
    WellFormed wState ∧
    recommend wSim wDoms wEmbed wState 1 1 none 3 3 = Except.ok wRes ∧
    (∀ e ∈ wRes.cross_document, e.document_id ≠ 1) ∧
    (∀ e ∈ wRes.same_document, e.page_number ≠ 1) := by
  have hok : recommend wSim wDoms wEmbed wState 1 1 none 3 3 = Except.ok wRes := by
    rfl
  have h := claim_C5_no_self_recommendation wSim wDoms wEmbed wState 1 1 none 3 3
    wRes (by decide) hok
  exact ⟨by decide, hok, h⟩

theorem assembleLists_pairwise_same {sim : List ℚ → List ℚ → ℚ}
    {doms : String → List String} {store : SectionStore}
    {pageSecs : List PdfSection} {qv : List ℚ} {prof : Option Profile}
    {sk ck : Nat} {sameHits crossHits : List (Nat × ℚ)} :
    (assembleLists sim doms store pageSecs qv prof sk ck
      sameHits crossHits).same_document.Pairwise entryRank := by
  unfold assembleLists
  dsimp only
  apply List.Pairwise.map
  · intro a b hab
    exact hab
  · exact List.Pairwise.sublist (List.take_sublist _ _)
      (List.sorted_insertionSort rankGE _)

theorem assembleLists_pairwise_cross {sim : List ℚ → List ℚ → ℚ}
    {doms : String → List String} {store : SectionStore}
    {pageSecs : List PdfSection} {qv : List ℚ} {prof : Option Profile}
    {sk ck : Nat} {sameHits crossHits : List (Nat × ℚ)} :
    (assembleLists sim doms store pageSecs qv prof sk ck
      sameHits crossHits).cross_document.Pairwise entryRank := by
  unfold assembleLists
  dsimp only
  apply List.Pairwise.map
  · intro a b hab
    exact hab
  · exact List.Pairwise.sublist
      ((List.filter_sublist _).trans (List.take_sublist _ _))
      (List.sorted_insertionSort rankGE _)

/-- C6: `recommend` is deterministic — the same state and inputs give the
same answer — and both returned lists are ordered by descending score
with equal scores broken by page number ascending then section id
ascending. -/
theorem claim_C6_deterministic_ordering (sim : List ℚ → List ℚ → ℚ)
    (doms : String → List String) (embed : String → Option (List ℚ))
    (st : LibraryState) (d p : Nat) (prof : Option Profile) (sk ck : Nat) :
    recommend sim doms embed st d p prof sk ck
      = recommend sim doms embed st d p prof sk ck ∧
    ∀ res, recommend sim doms embed st d p prof sk ck = .ok res →
      res.same_document.Pairwise entryRank ∧
      res.cross_document.Pairwise entryRank := by
  refine ⟨rfl, ?_⟩
  intro res h
  rcases recommend_ok_inv h with ⟨hp, qv, hq, rfl⟩
  exact ⟨assembleLists_pairwise_same, assembleLists_pairwise_cross⟩

/-- Witness for C6 on the concrete two-document library. -/
theorem claim_C6_deterministic_ordering_witness :
    recommend wSim wDoms wEmbed wState 1 1 none 3 3 = Except.ok wRes ∧
    wRes.same_document.Pairwise entryRank ∧
    wRes.cross_document.Pairwise entryRank := by
  have hok : recommend wSim wDoms wEmbed wState 1 1 none 3 3 = Except.ok wRes := by
    rfl
  exact ⟨hok,
    (claim_C6_deterministic_ordering wSim wDoms wEmbed wState 1 1 none 3 3).2 wRes hok⟩

theorem enhanceFrom_length (b : String → String → Nat → String → String → Option ℚ)
    (pe jo : String) :
    ∀ (rs : List RelatedSection) (n : Nat), (enhanceFrom b pe jo n rs).length = rs.length := by
  intro rs
  induction rs with
  | nil => intro n; rfl
  | cons r rs ih =>
    intro n
    simp only [enhanceFrom, List.length_cons, ih]

theorem enhanceOne_frame (b : String → String → Nat → String → String → Option ℚ)
    (pe jo : String) (r : RelatedSection) :
    (enhanceOne b pe jo r).id = r.id ∧ (enhanceOne b pe jo r).title = r.title ∧
    (enhanceOne b pe jo r).snippet = r.snippet ∧
    (enhanceOne b pe jo r).page = r.page ∧
    (enhanceOne b pe jo r).documentId = r.documentId ∧
    (enhanceOne b pe jo r).documentName = r.documentName ∧
    (enhanceOne b pe jo r).relevance = r.relevance := by
  unfold enhanceOne
  cases b r.snippet r.title r.page pe jo <;> simp

theorem enhanceFrom_getD (b : String → String → Nat → String → String → Option ℚ)
    (pe jo : String) :
    ∀ (rs : List RelatedSection) (n i : Nat), i < rs.length →
      (enhanceFrom b pe jo n rs).getD i default
        = if n + i < 5 then enhanceOne b pe jo (rs.getD i default)
          else rs.getD i default := by
  intro rs
  induction rs with
  | nil => intro n i h; simp at h
  | cons r rs ih =>
    intro n i h
    cases i with
    | zero =>
      simp only [enhanceFrom, List.getD_cons_zero, Nat.add_zero]
    | succ i =>
      have hlt : i < rs.length := by
        simpa using Nat.lt_of_succ_lt_succ h
      simp only [enhanceFrom, List.getD_cons_succ]
      rw [ih (n + 1) i hlt]
      have harith : n + 1 + i = n + (i + 1) := by omega
      rw [harith]

theorem enhanceFrom_getD0 (b : String → String → Nat → String → String → Option ℚ)
    (pe jo : String) (recs : List RelatedSection) (i : Nat) :
    (enhanceFrom b pe jo 0 recs).getD i default
      = if i < 5 ∧ i < recs.length then enhanceOne b pe jo (recs.getD i default)
        else recs.getD i default := by
  by_cases hi : i < recs.length
  · rw [enhanceFrom_getD b pe jo recs 0 i hi]
    simp [hi]
  · have h1 : recs.length ≤ i := le_of_not_lt hi
    have h2 : (enhanceFrom b pe jo 0 recs).length ≤ i := by
      rw [enhanceFrom_length]
      exact h1
    rw [List.getD_eq_default _ _ h1, List.getD_eq_default _ _ h2]
    simp [hi]

/-- C10: the recommendations endpoint applies persona/job-enhanced
scoring to at most the first five cross-document candidates and only when
both persona and job are truthy; every candidate beyond the fifth is
returned untouched (base relevance kept, no intelligence explanation
added), and the enhancement pass never changes any field other than
`enhanced_relevance` and `intelligence_explanation`. -/
theorem claim_C10_enhancement_pass
    (brain : String → String → Nat → String → String → Option ℚ)
    (inc : Bool) (persona job : Option String)
    (recs out : List RelatedSection) (i : Nat)
    (hout : out = enhance_cross_document brain inc persona job recs) :
    out.length = recs.length ∧
    ((out.getD i default).id = (recs.getD i default).id ∧
     (out.getD i default).title = (recs.getD i default).title ∧
     (out.getD i default).snippet = (recs.getD i default).snippet ∧
     (out.getD i default).page = (recs.getD i default).page ∧
     (out.getD i default).documentId = (recs.getD i default).documentId ∧
     (out.getD i default).documentName = (recs.getD i default).documentName ∧
     (out.getD i default).relevance = (recs.getD i default).relevance) ∧
    (5 ≤ i → out.getD i default = recs.getD i default) ∧
    (¬(truthy persona = true ∧ truthy job = true) → out = recs) ∧
    ((out.getD i default).intelligence_explanation
        ≠ (recs.getD i default).intelligence_explanation →
      i < 5 ∧ truthy persona = true ∧ truthy job = true) := by
  subst hout
  unfold enhance_cross_document
  by_cases hc : (inc && !recs.isEmpty && truthy persona && truthy job) = true
  · rw [if_pos hc]
    have h1 := hc
    rw [Bool.and_eq_true] at h1
    obtain ⟨h2, htj⟩ := h1
    rw [Bool.and_eq_true] at h2
    obtain ⟨h3, htp⟩ := h2
    refine ⟨enhanceFrom_length brain _ _ recs 0, ?_, ?_, ?_, ?_⟩
    · rw [enhanceFrom_getD0]
      by_cases hcond : i < 5 ∧ i < recs.length
      · simp only [if_pos hcond]
        exact enhanceOne_frame brain _ _ _
      · simp only [if_neg hcond]
        simp
    · intro h5
      rw [enhanceFrom_getD0]
      have hcond : ¬(i < 5 ∧ i < recs.length) := by omega
      rw [if_neg hcond]
    · intro hnt
      exact absurd ⟨htp, htj⟩ hnt
    · intro hneq
      refine ⟨?_, htp, htj⟩
      by_contra hi5
      apply hneq
      rw [enhanceFrom_getD0]
      have hcond : ¬(i < 5 ∧ i < recs.length) := fun hand => hi5 hand.1
      rw [if_neg hcond]
  · rw [if_neg hc]
    refine ⟨rfl, ⟨rfl, rfl, rfl, rfl, rfl, rfl, rfl⟩, fun _ => rfl, fun _ => rfl, ?_⟩
    intro hneq
    exact absurd rfl hneq

/-- Witness for C10 on two concrete candidates with a truthy persona and
job. -/
theorem claim_C10_enhancement_pass_witness :
    (enhance_cross_document wBrain true (some "student") (some "study")
        [wRel0, wRel1]).length = [wRel0, wRel1].length ∧
    ((enhance_cross_document wBrain true (some "student") (some "study")
        [wRel0, wRel1]).getD 0 default).relevance
      = ([wRel0, wRel1].getD 0 default).relevance := by
  have h := claim_C10_enhancement_pass wBrain true (some "student") (some "study")
    [wRel0, wRel1] _ 0 rfl
  exact ⟨h.1, h.2.1.2.2.2.2.2.2⟩
